import Mathlib

/-!
Shallow embedding of the trayd-protoype job/worker tracking service
(src/api/app/models.py, schemas.py, main.py).

Modelling conventions:
* Python `date` values are modelled as `Int` (day ordinals); `date` objects
  are always truthy in Python, so `if start_after:` tests `Option.isSome`.
* Python `int` truthiness: `if worker.job_id:` is true iff the value is
  present and nonzero.
* The relational store is a `DB` record: lists of rows plus the Postgres
  id sequences (`nextJobId`, `nextWorkerId`, starting at 1).
* `Job.id` / `Worker.id` are primary keys, so at most one row matches an id
  lookup; deletion of the row found by `.first()` is modelled as filtering
  that id out.
* The `workers.job_id` column carries `ForeignKey("jobs.id")`: committing an
  insert whose job_id references no job raises IntegrityError, which the
  `get_db` context manager turns into an HTTP 500 ("Database error occurred")
  after rollback.
* Pydantic schema validation (field constraints and the `validate_dates`
  validator of schemas.py) runs before the endpoint body; FastAPI surfaces
  such failures as HTTP 422 responses.
* Each mutating endpoint is a function `DB → Except Err resp × DB`; the
  second component is the store after the request (unchanged on failure,
  matching rollback / no commit).
-/

namespace Trayd

instance {ε α : Type} [DecidableEq ε] [DecidableEq α] : DecidableEq (Except ε α) :=
  fun x y =>
    match x, y with
    | .error a, .error b =>
      if h : a = b then .isTrue (by rw [h]) else .isFalse (by simp [h])
    | .ok a, .ok b =>
      if h : a = b then .isTrue (by rw [h]) else .isFalse (by simp [h])
    | .error _, .ok _ => .isFalse (by simp)
    | .ok _, .error _ => .isFalse (by simp)

/-- HTTP error response: status code and detail message. -/
structure Err where
  status_code : Nat
  detail : String
deriving DecidableEq, Repr

/-- models.py `Job` row: id, name, customer, optional dates, optional status. -/
structure Job where
  id : Int
  name : String
  customer : String
  start_date : Option Int
  end_date : Option Int
  status : Option String
deriving DecidableEq, Repr

/-- models.py `Worker` row: id, name, role, optional job_id foreign key. -/
structure Worker where
  id : Int
  name : String
  role : String
  job_id : Option Int
deriving DecidableEq, Repr

/-- The relational store: job and worker tables plus the id sequences. -/
structure DB where
  jobs : List Job
  workers : List Worker
  nextJobId : Int
  nextWorkerId : Int
deriving DecidableEq, Repr

/-- The freshly created store: empty tables, sequences at 1. -/
def db0 : DB := ⟨[], [], 1, 1⟩

/-- schemas.py `JobCreate` payload (typed, before pydantic validation). -/
structure JobCreate where
  name : String
  customer : String
  start_date : Option Int
  end_date : Option Int
  status : Option String
deriving DecidableEq, Repr

/-- schemas.py `WorkerCreate` payload (typed, before pydantic validation). -/
structure WorkerCreate where
  name : String
  role : String
  job_id : Option Int
deriving DecidableEq, Repr

/-- schemas.py `SortField` enum. -/
inductive SortField where
  | name
  | start_date
  | customer
  | status
deriving DecidableEq, Repr

/-- schemas.py `JobResponse`: the job's fields plus its embedded workers list. -/
structure JobResponse where
  job : Job
  workers : List Worker
deriving DecidableEq, Repr

/-- schemas.py `JobAnalytics` response; Python dicts are modelled as
association lists in insertion order. -/
structure JobAnalytics where
  total_jobs : Nat
  jobs_by_status : List (String × Nat)
  total_workers : Nat
  workers_by_role : List (String × Nat)
deriving DecidableEq, Repr

/-- Python truthiness of an `Optional[int]`: present and nonzero. -/
def truthyInt : Option Int → Bool
  | none => false
  | some n => n != 0

/-- `Field(..., min_length=1, max_length=100)` on a string. -/
def validStr (s : String) : Bool :=
  1 ≤ s.length && s.length ≤ 100

/-- schemas.py JobBase.status `pattern="^(In Progress|Completed|Cancelled)$"`.
Note: "Pending" is NOT in this pattern. -/
def jobCreateStatusOk : Option String → Bool
  | none => true
  | some s => s == "In Progress" || s == "Completed" || s == "Cancelled"

/-- main.py get_jobs `status` query `pattern="^(Pending|In Progress|Completed|Cancelled)$"`. -/
def jobsQueryStatusOk (s : String) : Bool :=
  s == "Pending" || s == "In Progress" || s == "Completed" || s == "Cancelled"

/-- schemas.py `JobBase.validate_dates`: raises ValueError when both dates are
present and end_date < start_date. (dates are always truthy). -/
def datesOk : Option Int → Option Int → Bool
  | some s, some e => !(e < s)
  | _, _ => true

/-- Pydantic validation of a `JobCreate` body; `some err` is surfaced by
FastAPI as a 422 response before `create_job` runs. -/
def validateJobCreate (j : JobCreate) : Option Err :=
  if !validStr j.name then some ⟨422, "name length out of range"⟩
  else if !validStr j.customer then some ⟨422, "customer length out of range"⟩
  else if !datesOk j.start_date j.end_date then
    some ⟨422, "end_date must be after start_date"⟩
  else if !jobCreateStatusOk j.status then some ⟨422, "status pattern mismatch"⟩
  else none

/-- Pydantic validation of a `WorkerCreate` body. -/
def validateWorkerCreate (w : WorkerCreate) : Option Err :=
  if !validStr w.name then some ⟨422, "name length out of range"⟩
  else if !validStr w.role then some ⟨422, "role length out of range"⟩
  else none

def notFoundJob (jid : Int) : Err :=
  ⟨404, "Job with id " ++ toString jid ++ " not found"⟩

def notFoundWorker (wid : Int) : Err :=
  ⟨404, "Worker with id " ++ toString wid ++ " not found"⟩

/-- get_db's SQLAlchemyError handler: rollback and HTTP 500. -/
def dbError : Err := ⟨500, "Database error occurred"⟩

/-- The response of get_jobs' bad-range branch: inside `get_jobs` the query
parameter `status` shadows the imported fastapi `status` module, so
evaluating `status.HTTP_400_BAD_REQUEST` there raises AttributeError (the
parameter is None or a string); `get_db` catches only SQLAlchemyError, so
the exception escapes and the framework answers a generic 500. -/
def shadowedStatus500 : Err := ⟨500, "Internal Server Error"⟩

/-- Case-insensitive substring helpers for SQL `ilike '%kw%'`; characters are
compared by codepoint after ASCII case folding. -/
def lowerCode (n : Nat) : Nat :=
  if 65 ≤ n && n ≤ 90 then n + 32 else n

def codesOf (s : String) : List Nat :=
  s.toList.map (fun c => lowerCode c.toNat)

def codesStart : List Nat → List Nat → Bool
  | [], _ => true
  | _ :: _, [] => false
  | a :: as, b :: bs => a == b && codesStart as bs

def codesSub (needle : List Nat) : List Nat → Bool
  | [] => needle.isEmpty
  | c :: rest => codesStart needle (c :: rest) || codesSub needle rest

/-- `column ILIKE '%pat%'`: pattern occurs in column, case-insensitively. -/
def containsCI (column pat : String) : Bool :=
  codesSub (codesOf pat) (codesOf column)

/-- The workers joined to a job id (`joinedload(Job.workers)` /
`Job.workers` relationship: workers whose job_id equals the job's id). -/
def workersOf (db : DB) (jid : Int) : List Worker :=
  db.workers.filter (fun w => w.job_id == some jid)

/-- The `workers.job_id → jobs.id` foreign-key constraint: an insert commits
only if job_id is NULL or references an existing job row. -/
def fkOk (db : DB) : Option Int → Bool
  | none => true
  | some v => db.jobs.any (fun j => j.id == v)

/-- main.py `create_job` (POST /jobs/): pydantic-validate, insert the row
with the next sequence id, re-query with joined workers. -/
def create_job (db : DB) (inp : JobCreate) : Except Err JobResponse × DB :=
  match validateJobCreate inp with
  | some e => (.error e, db)
  | none =>
    let j : Job :=
      ⟨db.nextJobId, inp.name, inp.customer, inp.start_date, inp.end_date, inp.status⟩
    let db' : DB :=
      { db with jobs := db.jobs ++ [j], nextJobId := db.nextJobId + 1 }
    (.ok ⟨j, workersOf db' j.id⟩, db')

/-- Sort key comparison for `order_by`, ascending; SQL NULLs sort last
ascending (Postgres default). -/
def optionLe (cmp : α → α → Ordering) : Option α → Option α → Bool
  | none, none => true
  | none, some _ => false
  | some _, none => true
  | some a, some b => (cmp a b).isLE

def jobFieldLe (f : SortField) (x y : Job) : Bool :=
  match f with
  | .name => (compare x.name y.name).isLE
  | .customer => (compare x.customer y.customer).isLE
  | .start_date => optionLe compare x.start_date y.start_date
  | .status => optionLe compare x.status y.status

/-- Stable insertion of a (later) element into an ordered list. -/
def insOrdered (le : Job → Job → Bool) (j : Job) : List Job → List Job
  | [] => [j]
  | x :: xs => if le x j then x :: insOrdered le j xs else j :: x :: xs

def sortJobs (f : SortField) (dsc : Bool) (l : List Job) : List Job :=
  let le := fun x y => if dsc then jobFieldLe f y x else jobFieldLe f x y
  l.foldl (fun acc j => insOrdered le j acc) []

/-- Query parameters of GET /jobs/. -/
structure JobsQuery where
  keyword : Option String
  status : Option String
  start_after : Option Int
  end_before : Option Int
  sort_by : Option SortField
  desc : Bool
deriving DecidableEq, Repr

/-- main.py `get_jobs` (GET /jobs/): when start_after > end_before the code
tries to raise a 400, but the `status` query parameter shadows the fastapi
`status` module, so `status.HTTP_400_BAD_REQUEST` raises AttributeError and
the request ends as a 500 (see `shadowedStatus500`); otherwise apply
keyword/status/date filters and optional ordering. Dates are always truthy,
so the range branch fires whenever both are present; string parameters are
truthy iff nonempty; SQL comparisons against NULL columns exclude the row. -/
def get_jobs (db : DB) (q : JobsQuery) : Except Err (List JobResponse) :=
  let badRange : Bool :=
    match q.start_after, q.end_before with
    | some a, some b => decide (b < a)
    | _, _ => false
  if badRange then
    .error shadowedStatus500
  else
    let l1 :=
      match q.keyword with
      | some kw =>
        if kw.isEmpty then db.jobs
        else db.jobs.filter (fun j => containsCI j.name kw || containsCI j.customer kw)
      | none => db.jobs
    let l2 :=
      match q.status with
      | some s =>
        if s.isEmpty then l1 else l1.filter (fun j => j.status == some s)
      | none => l1
    let l3 :=
      match q.start_after with
      | some a =>
        l2.filter (fun j => match j.start_date with | some d => a ≤ d | none => false)
      | none => l2
    let l4 :=
      match q.end_before with
      | some b =>
        l3.filter (fun j => match j.end_date with | some d => d ≤ b | none => false)
      | none => l3
    let l5 :=
      match q.sort_by with
      | some f => sortJobs f q.desc l4
      | none => l4
    .ok (l5.map (fun j => ⟨j, workersOf db j.id⟩))

/-- main.py `get_job_by_id` (GET /jobs/{id}): 404 when absent. -/
def get_job_by_id (db : DB) (jid : Int) : Except Err JobResponse :=
  match db.jobs.find? (fun j => j.id == jid) with
  | none => .error (notFoundJob jid)
  | some j => .ok ⟨j, workersOf db jid⟩

/-- main.py `delete_job` (DELETE /jobs/{id}): 404 when absent; deleting the
job cascades (`cascade="all, delete-orphan"` / ON DELETE CASCADE) to every
worker whose job_id references it. -/
def delete_job (db : DB) (jid : Int) : Except Err Unit × DB :=
  if db.jobs.any (fun j => j.id == jid) then
    (.ok (),
      { db with
        jobs := db.jobs.filter (fun j => j.id != jid)
        workers := db.workers.filter (fun w => w.job_id != some jid) })
  else (.error (notFoundJob jid), db)

/-- main.py `create_worker` (POST /workers/): pydantic-validate; when job_id
is truthy (present and nonzero) look the job up and 404 when absent; then
insert — the commit enforces the foreign key, so a dangling job_id (only
reachable with job_id = 0, which skips the truthy check) raises
IntegrityError and surfaces as 500 after rollback. -/
def create_worker (db : DB) (inp : WorkerCreate) : Except Err Worker × DB :=
  match validateWorkerCreate inp with
  | some e => (.error e, db)
  | none =>
    let checked : Except Err Unit :=
      match inp.job_id with
      | some v =>
        if v != 0 then
          if db.jobs.any (fun j => j.id == v) then .ok ()
          else .error (notFoundJob v)
        else .ok ()
      | none => .ok ()
    match checked with
    | .error e => (.error e, db)
    | .ok _ =>
      if fkOk db inp.job_id then
        let w : Worker := ⟨db.nextWorkerId, inp.name, inp.role, inp.job_id⟩
        (.ok w,
          { db with workers := db.workers ++ [w], nextWorkerId := db.nextWorkerId + 1 })
      else (.error dbError, db)

/-- main.py `get_workers` (GET /workers/): name/role case-insensitive
substring filters (truthy iff nonempty), job_id exact filter applied only
when job_id is truthy (present and nonzero). -/
def get_workers (db : DB) (name role : Option String) (job_id : Option Int) :
    List Worker :=
  let l1 :=
    match name with
    | some s =>
      if s.isEmpty then db.workers
      else db.workers.filter (fun w => containsCI w.name s)
    | none => db.workers
  let l2 :=
    match role with
    | some s =>
      if s.isEmpty then l1 else l1.filter (fun w => containsCI w.role s)
    | none => l1
  if truthyInt job_id then l2.filter (fun w => w.job_id == job_id) else l2

/-- main.py `get_job_workers` (GET /jobs/{id}/workers/): 404 when the job is
absent, else its workers. -/
def get_job_workers (db : DB) (jid : Int) : Except Err (List Worker) :=
  if db.jobs.any (fun j => j.id == jid) then .ok (workersOf db jid)
  else .error (notFoundJob jid)

/-- Update the first worker row matching the id (the one `.first()` found). -/
def setJobIdFirst (wid jid : Int) : List Worker → List Worker
  | [] => []
  | w :: ws =>
    if w.id == wid then { w with job_id := some jid } :: ws
    else w :: setJobIdFirst wid jid ws

/-- main.py `assign_worker_to_job` (PUT /workers/{id}/assign/{job_id}): 404
when the worker is absent, then 404 when the job is absent, else set the
worker's job_id and return the refreshed worker. -/
def assign_worker_to_job (db : DB) (wid jid : Int) : Except Err Worker × DB :=
  match db.workers.find? (fun w => w.id == wid) with
  | none => (.error (notFoundWorker wid), db)
  | some w =>
    match db.jobs.find? (fun j => j.id == jid) with
    | none => (.error (notFoundJob jid), db)
    | some _ =>
      (.ok { w with job_id := some jid },
        { db with workers := setJobIdFirst wid jid db.workers })

/-- Python dict insertion on an association list: an existing key keeps its
slot and gets the new value, a new key is appended. -/
def dictInsert (k : String) (v : Nat) : List (String × Nat) → List (String × Nat)
  | [] => [(k, v)]
  | (k', v') :: rest =>
    if k' == k then (k, v) :: rest else (k', v') :: dictInsert k v rest

/-- Build a Python dict from (key, value) tuples, later keys overwriting. -/
def buildDict (l : List (String × Nat)) : List (String × Nat) :=
  l.foldl (fun d kv => dictInsert kv.1 kv.2 d) []

/-- `status if status else "Unspecified"`: None and the empty string are
falsy in Python. -/
def statusKey : Option String → String
  | none => "Unspecified"
  | some s => if s.isEmpty then "Unspecified" else s

/-- Sum of the values of a dict. -/
def sumValues (d : List (String × Nat)) : Nat :=
  (d.map Prod.snd).sum

/-- Number of rows equal to a value (`COUNT(id)` within a GROUP BY group). -/
def countOcc {α : Type} [DecidableEq α] (x : α) : List α → Nat
  | [] => 0
  | y :: ys => (if y = x then 1 else 0) + countOcc x ys

/-- main.py `get_analytics` (GET /analytics/): row counts and GROUP BY
breakdowns; the status dict maps NULL (and empty) status to "Unspecified". -/
def get_analytics (db : DB) : JobAnalytics :=
  let sts := db.jobs.map (fun j => j.status)
  let status_counts := sts.dedup.map (fun s => (s, countOcc s sts))
  let jobs_by_status :=
    buildDict (status_counts.map (fun p => (statusKey p.1, p.2)))
  let roles := db.workers.map (fun w => w.role)
  let role_counts := roles.dedup.map (fun r => (r, countOcc r roles))
  let workers_by_role := buildDict role_counts
  ⟨db.jobs.length, jobs_by_status, db.workers.length, workers_by_role⟩

/-- A small sample store used to exercise the endpoint functions. -/
def dbEx : DB :=
  ⟨[⟨1, "Alpha", "Acme", some 10, some 20, some "Completed"⟩,
    ⟨2, "Beta", "Globex", none, none, none⟩],
   [⟨1, "Wilma", "Welder", some 1⟩, ⟨2, "Vik", "Smith", some 2⟩,
    ⟨3, "Uma", "Mason", none⟩],
   3, 4⟩

/-- The sample store after assigning worker 3 to job 1. -/
def dbExAssigned : DB :=
  ⟨dbEx.jobs,
   [⟨1, "Wilma", "Welder", some 1⟩, ⟨2, "Vik", "Smith", some 2⟩,
    ⟨3, "Uma", "Mason", some 1⟩],
   3, 4⟩

/-- Stores reachable from the fresh store by the four mutating endpoints. -/
inductive Reachable : DB → Prop
  | init : Reachable db0
  | createJob (db : DB) (inp : JobCreate) :
      Reachable db → Reachable (create_job db inp).2
  | createWorker (db : DB) (inp : WorkerCreate) :
      Reachable db → Reachable (create_worker db inp).2
  | assignWorker (db : DB) (wid jid : Int) :
      Reachable db → Reachable (assign_worker_to_job db wid jid).2
  | deleteJob (db : DB) (jid : Int) :
      Reachable db → Reachable (delete_job db jid).2

/-- Referential integrity: every set worker.job_id references an existing job. -/
def RefIntegrity (db : DB) : Prop :=
  ∀ w ∈ db.workers, ∀ jid : Int, w.job_id = some jid → ∃ j ∈ db.jobs, j.id = jid

/-- A status value the API can store: NULL or a creatable status string. -/
def OKStatus (s : Option String) : Prop :=
  s = none ∨ s = some "In Progress" ∨ s = some "Completed" ∨ s = some "Cancelled"

/-- Every stored status is NULL or one of the creatable status strings. -/
def ValidStatuses (db : DB) : Prop :=
  ∀ j ∈ db.jobs, OKStatus j.status

/-! ### Helper lemmas -/

theorem validateJobCreate_bad_dates (j : JobCreate)
    (h : datesOk j.start_date j.end_date = false) :
    ∃ e : Err, validateJobCreate j = some e ∧ e.status_code = 422 := by
  unfold validateJobCreate
  cases hn : validStr j.name with
  | false => exact ⟨⟨422, "name length out of range"⟩, by simp [hn], rfl⟩
  | true =>
    cases hc : validStr j.customer with
    | false => exact ⟨⟨422, "customer length out of range"⟩, by simp [hn, hc], rfl⟩
    | true => exact ⟨⟨422, "end_date must be after start_date"⟩, by simp [hn, hc, h], rfl⟩

/-! ### Claim theorems -/

/-- C1 (code bug): listing jobs with start_after > end_before does not fail
with 400 — the bad-range branch evaluates `status.HTTP_400_BAD_REQUEST`
while the `status` query parameter shadows the fastapi status module, so it
raises AttributeError and the request fails with 500 (and still returns no
job list), even though the code's own HTTPException names
HTTP_400_BAD_REQUEST as the intended response. -/
theorem get_jobs_bad_range_500 :
    get_jobs db0 ⟨none, none, some 5, some 3, none, false⟩
      = .error shadowedStatus500 ∧
    shadowedStatus500.status_code = 500 ∧
    ¬ ∃ d : String, get_jobs db0 ⟨none, none, some 5, some 3, none, false⟩
        = .error ⟨400, d⟩ := by
  refine ⟨by decide, by decide, ?_⟩
  rintro ⟨d, hd⟩
  have h1 : get_jobs db0 ⟨none, none, some 5, some 3, none, false⟩
      = .error shadowedStatus500 := by decide
  rw [h1] at hd
  simp only [shadowedStatus500, Except.error.injEq, Err.mk.injEq] at hd
  exact absurd hd.1 (by decide)

/-- C2 (code bug): the JobCreate status pattern of schemas.py omits
"Pending", so creating a Job with status "Pending" is rejected with a 422
validation error instead of succeeding with 201, even though the get_jobs
status filter pattern of main.py accepts "Pending"; the other three status
values are accepted and the created Job carries an empty workers list. -/
theorem create_job_pending_rejected :
    (create_job db0 ⟨"A", "B", none, none, some "Pending"⟩).1
      = .error ⟨422, "status pattern mismatch"⟩ ∧
    jobsQueryStatusOk "Pending" = true ∧
    (create_job db0 ⟨"A", "B", none, none, some "In Progress"⟩).1
      = .ok ⟨⟨1, "A", "B", none, none, some "In Progress"⟩, []⟩ ∧
    (create_job db0 ⟨"A", "B", none, none, some "Completed"⟩).1
      = .ok ⟨⟨1, "A", "B", none, none, some "Completed"⟩, []⟩ ∧
    (create_job db0 ⟨"A", "B", none, none, some "Cancelled"⟩).1
      = .ok ⟨⟨1, "A", "B", none, none, some "Cancelled"⟩, []⟩ := by
  decide

/-- C3 counterexample: creating a Job with end_date < start_date fails with
status 422 (pydantic request validation), not 400 — the ValueError raised by
`validate_dates` is consumed by pydantic before `create_job` runs, so the
`except ValueError → 400` branch is never reached. -/
theorem create_job_date_order_not_400 :
    create_job db0 ⟨"A", "B", some 2, some 1, none⟩
      = (.error ⟨422, "end_date must be after start_date"⟩, db0) ∧
    ¬ ∃ d : String, (create_job db0 ⟨"A", "B", some 2, some 1, none⟩).1
        = .error ⟨400, d⟩ := by
  refine ⟨by decide, ?_⟩
  rintro ⟨d, hd⟩
  have h1 : (create_job db0 ⟨"A", "B", some 2, some 1, none⟩).1
      = .error ⟨422, "end_date must be after start_date"⟩ := by decide
  rw [h1] at hd
  simp only [Except.error.injEq, Err.mk.injEq] at hd
  exact absurd hd.1 (by decide)

/-- C3 (amended): for every createJob input in which both start_date and
end_date are present and end_date < start_date, the operation fails with
status 422 and no Job is persisted (the store is unchanged). -/
theorem create_job_bad_dates_422 (db : DB) (inp : JobCreate) (s e : Int)
    (hs : inp.start_date = some s) (he : inp.end_date = some e) (hlt : e < s) :
    ∃ err : Err, create_job db inp = (.error err, db) ∧ err.status_code = 422 := by
  have hd : datesOk inp.start_date inp.end_date = false := by
    rw [hs, he]
    simp [datesOk, hlt]
  obtain ⟨err, hv, h422⟩ := validateJobCreate_bad_dates inp hd
  exact ⟨err, by simp [create_job, hv], h422⟩

theorem create_job_bad_dates_422_witness :
    ∃ err : Err, create_job db0 ⟨"A", "B", some 2, some 1, none⟩
      = (.error err, db0) ∧ err.status_code = 422 :=
  create_job_bad_dates_422 db0 ⟨"A", "B", some 2, some 1, none⟩ 2 1
    rfl rfl (by decide)

/-- C10: listing workers with the job_id filter equal to 0 ignores the
filter and returns every Worker — the filter is applied only when job_id is
a nonzero integer (Python truthiness of the int) — rather than returning the
workers whose job_id is exactly 0. -/
theorem get_workers_jobid_zero (db : DB) :
    get_workers db none none (some 0) = db.workers ∧
    ∀ v : Int, v ≠ 0 →
      get_workers db none none (some v)
        = db.workers.filter (fun w => w.job_id == some v) := by
  constructor
  · simp [get_workers, truthyInt]
  · intro v hv
    simp [get_workers, truthyInt, bne_iff_ne, hv]

theorem get_workers_jobid_zero_witness :
    get_workers ⟨[], [⟨1, "W", "R", none⟩, ⟨2, "V", "S", some 3⟩], 1, 3⟩
        none none (some 0)
      = [⟨1, "W", "R", none⟩, ⟨2, "V", "S", some 3⟩] ∧
    get_workers ⟨[], [⟨1, "W", "R", none⟩, ⟨2, "V", "S", some 3⟩], 1, 3⟩
        none none (some 3)
      = [⟨2, "V", "S", some 3⟩] := by
  have h := get_workers_jobid_zero ⟨[], [⟨1, "W", "R", none⟩, ⟨2, "V", "S", some 3⟩], 1, 3⟩
  exact ⟨h.1, by rw [h.2 3 (by decide)]; decide⟩

/-- C4: deleting an existing Job removes that Job and every Worker whose
job_id referenced it, leaving all other Jobs and Workers unchanged (in
order); deleting an absent id fails with 404 NotFound and changes nothing. -/
theorem delete_job_spec (db : DB) (jid : Int) :
    ((∃ j ∈ db.jobs, j.id = jid) →
      delete_job db jid = (.ok (),
        { db with
          jobs := db.jobs.filter (fun j => j.id != jid)
          workers := db.workers.filter (fun w => w.job_id != some jid) })) ∧
    ((∀ j ∈ db.jobs, j.id ≠ jid) →
      delete_job db jid = (.error (notFoundJob jid), db)) := by
  constructor
  · intro h
    have hany : db.jobs.any (fun j => j.id == jid) = true := by
      rw [List.any_eq_true]
      obtain ⟨j, hj, he⟩ := h
      exact ⟨j, hj, by simp [he]⟩
    simp [delete_job, hany]
  · intro h
    have hany : db.jobs.any (fun j => j.id == jid) = false := by
      simp only [List.any_eq_false]
      intro j hj
      simp [h j hj]
    simp [delete_job, hany]

theorem delete_job_spec_witness :
    delete_job dbEx 1 = (.ok (),
      { dbEx with
        jobs := dbEx.jobs.filter (fun j => j.id != 1)
        workers := dbEx.workers.filter (fun w => w.job_id != some 1) }) ∧
    delete_job dbEx 9 = (.error (notFoundJob 9), dbEx) :=
  ⟨(delete_job_spec dbEx 1).1 (by decide), (delete_job_spec dbEx 9).2 (by decide)⟩

/-- C6: assigning with an absent worker id fails with 404 and the store is
unchanged; with an existing worker but absent job in the same way; when both
exist, the (first) matching worker's job_id is set to jobId and the updated
worker is returned. -/
theorem assign_worker_spec (db : DB) (wid jid : Int) :
    ((∀ w ∈ db.workers, w.id ≠ wid) →
      assign_worker_to_job db wid jid = (.error (notFoundWorker wid), db)) ∧
    ((∃ w ∈ db.workers, w.id = wid) → (∀ j ∈ db.jobs, j.id ≠ jid) →
      assign_worker_to_job db wid jid = (.error (notFoundJob jid), db)) ∧
    ((∃ w ∈ db.workers, w.id = wid) → (∃ j ∈ db.jobs, j.id = jid) →
      ∃ w0 ∈ db.workers, w0.id = wid ∧
        assign_worker_to_job db wid jid =
          (.ok { w0 with job_id := some jid },
            { db with workers := setJobIdFirst wid jid db.workers })) := by
  refine ⟨?_, ?_, ?_⟩
  · intro h
    have hf : db.workers.find? (fun w => w.id == wid) = none := by
      rw [List.find?_eq_none]
      intro w hw
      simp [h w hw]
    simp [assign_worker_to_job, hf]
  · intro hw h
    cases hf : db.workers.find? (fun w => w.id == wid) with
    | none =>
      rw [List.find?_eq_none] at hf
      obtain ⟨w, hmem, hid⟩ := hw
      exact absurd (by simp [hid] : (fun w => w.id == wid) w = true) (by simp [hf w hmem])
    | some w0 =>
      have hfj : db.jobs.find? (fun j => j.id == jid) = none := by
        rw [List.find?_eq_none]
        intro j hj
        simp [h j hj]
      simp [assign_worker_to_job, hf, hfj]
  · intro hw hj
    cases hf : db.workers.find? (fun w => w.id == wid) with
    | none =>
      rw [List.find?_eq_none] at hf
      obtain ⟨w, hmem, hid⟩ := hw
      exact absurd (by simp [hid] : (fun w => w.id == wid) w = true) (by simp [hf w hmem])
    | some w0 =>
      cases hfj : db.jobs.find? (fun j => j.id == jid) with
      | none =>
        rw [List.find?_eq_none] at hfj
        obtain ⟨j, hmem, hid⟩ := hj
        exact absurd (by simp [hid] : (fun j => j.id == jid) j = true) (by simp [hfj j hmem])
      | some j0 =>
        refine ⟨w0, List.mem_of_find?_eq_some hf, ?_, ?_⟩
        · have := List.find?_some hf
          simpa using this
        · simp [assign_worker_to_job, hf, hfj]

theorem assign_worker_spec_witness :
    assign_worker_to_job dbEx 9 1 = (.error (notFoundWorker 9), dbEx) ∧
    assign_worker_to_job dbEx 1 9 = (.error (notFoundJob 9), dbEx) ∧
    (∃ w0 ∈ dbEx.workers, w0.id = 3 ∧
      assign_worker_to_job dbEx 3 1 =
        (.ok { w0 with job_id := some 1 },
          { dbEx with workers := setJobIdFirst 3 1 dbEx.workers })) :=
  ⟨(assign_worker_spec dbEx 9 1).1 (by decide),
   (assign_worker_spec dbEx 1 9).2.1 (by decide) (by decide),
   (assign_worker_spec dbEx 3 1).2.2 (by decide) (by decide)⟩

/-- C8 counterexample: a createWorker input with job_id = 0 (given, and no
Job with id 0 exists) is not answered with 404: the Python truthiness test
`if worker.job_id:` skips the existence check, the insert violates the
foreign key, and the request fails with 500. -/
theorem create_worker_jobid_zero_500 :
    create_worker db0 ⟨"W", "R", some 0⟩ = (.error dbError, db0) ∧
    dbError.status_code = 500 ∧
    ¬ ∃ d : String, (create_worker db0 ⟨"W", "R", some 0⟩).1 = .error ⟨404, d⟩ := by
  refine ⟨by decide, by decide, ?_⟩
  rintro ⟨d, hd⟩
  have h1 : (create_worker db0 ⟨"W", "R", some 0⟩).1 = .error dbError := by decide
  rw [h1] at hd
  simp only [dbError, Except.error.injEq, Err.mk.injEq] at hd
  exact absurd hd.1 (by decide)

/-- C8 (amended): for every field-valid createWorker input whose job_id is a
nonzero integer referencing no existing Job, the operation fails with 404
NotFound and no Worker is persisted; with job_id = 0 and no Job of id 0 it
fails with 500 (foreign-key violation) and no Worker is persisted; otherwise
(job_id absent or referencing an existing Job) a Worker is created and
returned with 201. -/
theorem create_worker_spec (db : DB) (inp : WorkerCreate)
    (hv : validateWorkerCreate inp = none) :
    (∀ v : Int, inp.job_id = some v → v ≠ 0 → (∀ j ∈ db.jobs, j.id ≠ v) →
      create_worker db inp = (.error (notFoundJob v), db)) ∧
    (inp.job_id = some 0 → (∀ j ∈ db.jobs, j.id ≠ 0) →
      create_worker db inp = (.error dbError, db)) ∧
    ((inp.job_id = none ∨ ∃ j ∈ db.jobs, inp.job_id = some j.id) →
      create_worker db inp =
        (.ok ⟨db.nextWorkerId, inp.name, inp.role, inp.job_id⟩,
          { db with
            workers := db.workers ++ [⟨db.nextWorkerId, inp.name, inp.role, inp.job_id⟩]
            nextWorkerId := db.nextWorkerId + 1 })) := by
  refine ⟨?_, ?_, ?_⟩
  · intro v hjid hv0 h
    have hany : db.jobs.any (fun j => j.id == v) = false := by
      simp only [List.any_eq_false]
      intro j hj
      simp [h j hj]
    simp [create_worker, hv, hjid, hany, hv0]
  · intro hjid h
    have hany : db.jobs.any (fun j => j.id == (0 : Int)) = false := by
      simp only [List.any_eq_false]
      intro j hj
      simp [h j hj]
    simp [create_worker, hv, hjid, fkOk, hany]
  · intro h
    cases h with
    | inl hnone => simp [create_worker, hv, hnone, fkOk]
    | inr hsome =>
      obtain ⟨j, hj, hjid⟩ := hsome
      have hany : db.jobs.any (fun x => x.id == j.id) = true := by
        rw [List.any_eq_true]
        exact ⟨j, hj, by simp⟩
      by_cases h0 : j.id = 0
      · simp [create_worker, hv, hjid, h0, fkOk, hany, h0 ▸ hany]
      · simp [create_worker, hv, hjid, fkOk, hany, h0]

theorem create_worker_spec_witness :
    create_worker dbEx ⟨"W", "R", some 9⟩ = (.error (notFoundJob 9), dbEx) ∧
    create_worker dbEx ⟨"W", "R", some 0⟩ = (.error dbError, dbEx) ∧
    create_worker dbEx ⟨"W", "R", some 1⟩ =
      (.ok ⟨dbEx.nextWorkerId, "W", "R", some 1⟩,
        { dbEx with
          workers := dbEx.workers ++ [⟨dbEx.nextWorkerId, "W", "R", some 1⟩]
          nextWorkerId := dbEx.nextWorkerId + 1 }) :=
  ⟨(create_worker_spec dbEx ⟨"W", "R", some 9⟩ (by decide)).1 9 rfl (by decide) (by decide),
   (create_worker_spec dbEx ⟨"W", "R", some 0⟩ (by decide)).2.1 rfl (by decide),
   (create_worker_spec dbEx ⟨"W", "R", some 1⟩ (by decide)).2.2
     (Or.inr ⟨⟨1, "Alpha", "Acme", some 10, some 20, some "Completed"⟩, by decide, rfl⟩)⟩

theorem find?_decomp {α : Type} (p : α → Bool) (l : List α) (a : α)
    (h : l.find? p = some a) :
    ∃ pre post, l = pre ++ a :: post ∧ ∀ v ∈ pre, p v = false := by
  induction l with
  | nil => simp at h
  | cons x xs ih =>
    cases hp : p x with
    | true =>
      rw [List.find?_cons_of_pos _ hp] at h
      cases h
      exact ⟨[], xs, rfl, by simp⟩
    | false =>
      rw [List.find?_cons_of_neg _ (by simp [hp])] at h
      obtain ⟨pre, post, hl, hall⟩ := ih h
      refine ⟨x :: pre, post, by rw [hl, List.cons_append], ?_⟩
      intro v hv
      rcases List.mem_cons.mp hv with h1 | h1
      · rw [h1]; exact hp
      · exact hall v h1

theorem setJobIdFirst_append (wid jid : Int) (pre post : List Worker) (w0 : Worker)
    (hpre : ∀ v ∈ pre, v.id ≠ wid) (hw : w0.id = wid) :
    setJobIdFirst wid jid (pre ++ w0 :: post)
      = pre ++ { w0 with job_id := some jid } :: post := by
  induction pre with
  | nil => simp [setJobIdFirst, hw]
  | cons x xs ih =>
    have hx : (x.id == wid) = false := by
      simp [hpre x (List.mem_cons_self x xs)]
    have ih' := ih (fun v hv => hpre v (List.mem_cons_of_mem x hv))
    simp [setJobIdFirst, hx, ih']

/-- C9 (frame property): a successful assign changes exactly the first
worker whose id matches — only its job_id field — and leaves every other
worker, every job, and the id sequences unchanged; the returned worker is
the updated one, keeping its id, name, and role. -/
theorem assign_worker_frame (db : DB) (wid jid : Int) (w : Worker) (db2 : DB)
    (h : assign_worker_to_job db wid jid = (.ok w, db2)) :
    db2.jobs = db.jobs ∧ db2.nextJobId = db.nextJobId ∧
    db2.nextWorkerId = db.nextWorkerId ∧
    ∃ pre w0 post,
      db.workers = pre ++ w0 :: post ∧ (∀ v ∈ pre, v.id ≠ wid) ∧ w0.id = wid ∧
      w = { w0 with job_id := some jid } ∧
      db2.workers = pre ++ { w0 with job_id := some jid } :: post := by
  unfold assign_worker_to_job at h
  cases hf : db.workers.find? (fun v => v.id == wid) with
  | none => rw [hf] at h; simp at h
  | some w0 =>
    rw [hf] at h
    cases hfj : db.jobs.find? (fun j => j.id == jid) with
    | none => rw [hfj] at h; simp at h
    | some j0 =>
      rw [hfj] at h
      simp only [Prod.mk.injEq, Except.ok.injEq] at h
      obtain ⟨hw, hdb⟩ := h
      obtain ⟨pre, post, hl, hall⟩ := find?_decomp _ _ _ hf
      have hall' : ∀ v ∈ pre, v.id ≠ wid := by
        intro v hv
        simpa using hall v hv
      have hw0 : w0.id = wid := by
        simpa using List.find?_some hf
      subst hdb
      refine ⟨rfl, rfl, rfl, pre, w0, post, hl, hall', hw0, hw.symm, ?_⟩
      show setJobIdFirst wid jid db.workers = _
      rw [hl, setJobIdFirst_append wid jid pre post w0 hall' hw0]

theorem assign_worker_frame_witness :
    dbExAssigned.jobs = dbEx.jobs ∧ dbExAssigned.nextJobId = dbEx.nextJobId ∧
    dbExAssigned.nextWorkerId = dbEx.nextWorkerId ∧
    ∃ pre w0 post,
      dbEx.workers = pre ++ w0 :: post ∧ (∀ v ∈ pre, v.id ≠ 3) ∧ w0.id = 3 ∧
      (⟨3, "Uma", "Mason", some 1⟩ : Worker) = { w0 with job_id := some 1 } ∧
      dbExAssigned.workers = pre ++ { w0 with job_id := some 1 } :: post :=
  assign_worker_frame dbEx 3 1 ⟨3, "Uma", "Mason", some 1⟩ dbExAssigned (by decide)

/-! ### State-shape lemmas for the mutating endpoints -/

theorem create_job_state (db : DB) (inp : JobCreate) :
    (create_job db inp).2 = db ∨
    (jobCreateStatusOk inp.status = true ∧
      (create_job db inp).2 =
        { db with
          jobs := db.jobs ++
            [⟨db.nextJobId, inp.name, inp.customer, inp.start_date, inp.end_date, inp.status⟩]
          nextJobId := db.nextJobId + 1 }) := by
  unfold create_job
  cases hv : validateJobCreate inp with
  | some e => left; rfl
  | none =>
    right
    refine ⟨?_, rfl⟩
    unfold validateJobCreate at hv
    by_cases h1 : validStr inp.name
    · by_cases h2 : validStr inp.customer
      · by_cases h3 : datesOk inp.start_date inp.end_date
        · by_cases h4 : jobCreateStatusOk inp.status
          · exact h4
          · simp [h1, h2, h3, h4] at hv
        · simp [h1, h2, h3] at hv
      · simp [h1, h2] at hv
    · simp [h1] at hv

theorem create_worker_state (db : DB) (inp : WorkerCreate) :
    (create_worker db inp).2 = db ∨
    ∃ w : Worker, fkOk db w.job_id = true ∧
      (create_worker db inp).2 =
        { db with workers := db.workers ++ [w], nextWorkerId := db.nextWorkerId + 1 } := by
  unfold create_worker
  cases hv : validateWorkerCreate inp with
  | some e => left; rfl
  | none =>
    cases hj : inp.job_id with
    | none =>
      right
      exact ⟨⟨db.nextWorkerId, inp.name, inp.role, none⟩, rfl, by simp [fkOk]⟩
    | some v =>
      cases hv0 : (v != 0) with
      | true =>
        cases hany : db.jobs.any (fun j => j.id == v) with
        | true =>
          right
          refine ⟨⟨db.nextWorkerId, inp.name, inp.role, some v⟩, ?_, ?_⟩
          · simpa [fkOk] using hany
          · simp [hv0, hany, fkOk]
        | false => left; simp [hv0, hany]
      | false =>
        cases hfk : fkOk db (some v) with
        | true =>
          right
          exact ⟨⟨db.nextWorkerId, inp.name, inp.role, some v⟩, hfk, by simp [hv0, hfk]⟩
        | false => left; simp [hv0, hfk]

theorem assign_worker_state (db : DB) (wid jid : Int) :
    (assign_worker_to_job db wid jid).2 = db ∨
    ((∃ j ∈ db.jobs, j.id = jid) ∧
      (assign_worker_to_job db wid jid).2 =
        { db with workers := setJobIdFirst wid jid db.workers }) := by
  unfold assign_worker_to_job
  cases hf : db.workers.find? (fun w => w.id == wid) with
  | none => left; rfl
  | some w0 =>
    cases hfj : db.jobs.find? (fun j => j.id == jid) with
    | none => left; rfl
    | some j0 =>
      right
      refine ⟨⟨j0, List.mem_of_find?_eq_some hfj, ?_⟩, rfl⟩
      simpa using List.find?_some hfj

theorem delete_job_state (db : DB) (jid : Int) :
    (delete_job db jid).2 = db ∨
    (delete_job db jid).2 =
      { db with
        jobs := db.jobs.filter (fun j => j.id != jid)
        workers := db.workers.filter (fun w => w.job_id != some jid) } := by
  unfold delete_job
  by_cases h : db.jobs.any (fun j => j.id == jid)
  · right; simp [h]
  · left; simp [h]

/-! ### Referential-integrity preservation -/

theorem refIntegrity_create_job (db : DB) (inp : JobCreate) (h : RefIntegrity db) :
    RefIntegrity (create_job db inp).2 := by
  rcases create_job_state db inp with heq | ⟨_, heq⟩ <;> rw [heq]
  · exact h
  · intro w hw jid hjid
    obtain ⟨j, hj, hje⟩ := h w hw jid hjid
    exact ⟨j, List.mem_append_left _ hj, hje⟩

theorem refIntegrity_create_worker (db : DB) (inp : WorkerCreate) (h : RefIntegrity db) :
    RefIntegrity (create_worker db inp).2 := by
  rcases create_worker_state db inp with heq | ⟨w, hfk, heq⟩ <;> rw [heq]
  · exact h
  · intro w2 hw2 jid hjid
    rcases List.mem_append.mp hw2 with hmem | hmem
    · exact h w2 hmem jid hjid
    · have hww : w2 = w := by simpa using hmem
      subst hww
      rw [hjid] at hfk
      unfold fkOk at hfk
      rw [List.any_eq_true] at hfk
      obtain ⟨j, hj, hje⟩ := hfk
      exact ⟨j, hj, by simpa using hje⟩

theorem mem_setJobIdFirst (wid jid : Int) (ws : List Worker) (w : Worker)
    (hw : w ∈ setJobIdFirst wid jid ws) :
    w ∈ ws ∨ ∃ w0 ∈ ws, w = { w0 with job_id := some jid } := by
  induction ws with
  | nil => simp [setJobIdFirst] at hw
  | cons x xs ih =>
    unfold setJobIdFirst at hw
    by_cases hx : (x.id == wid) = true
    · rw [if_pos hx] at hw
      rcases List.mem_cons.mp hw with h1 | h1
      · exact Or.inr ⟨x, List.mem_cons_self x xs, h1⟩
      · exact Or.inl (List.mem_cons_of_mem x h1)
    · rw [if_neg hx] at hw
      rcases List.mem_cons.mp hw with h1 | h1
      · exact Or.inl (h1 ▸ List.mem_cons_self x xs)
      · rcases ih h1 with h2 | ⟨w0, hw0, he⟩
        · exact Or.inl (List.mem_cons_of_mem x h2)
        · exact Or.inr ⟨w0, List.mem_cons_of_mem x hw0, he⟩

theorem refIntegrity_assign (db : DB) (wid jid : Int) (h : RefIntegrity db) :
    RefIntegrity (assign_worker_to_job db wid jid).2 := by
  rcases assign_worker_state db wid jid with heq | ⟨⟨j, hj, hje⟩, heq⟩ <;> rw [heq]
  · exact h
  · intro w hw k hk
    rcases mem_setJobIdFirst wid jid db.workers w hw with hmem | ⟨w0, _, hwe⟩
    · exact h w hmem k hk
    · subst hwe
      have hkj : k = jid := by
        have : some jid = some k := hk
        simpa using this.symm
      subst hkj
      exact ⟨j, hj, hje⟩

theorem refIntegrity_delete (db : DB) (jid : Int) (h : RefIntegrity db) :
    RefIntegrity (delete_job db jid).2 := by
  rcases delete_job_state db jid with heq | heq <;> rw [heq]
  · exact h
  · intro w hw k hk
    obtain ⟨hmem, hcond⟩ := List.mem_filter.mp hw
    obtain ⟨j, hj, hje⟩ := h w hmem k hk
    refine ⟨j, List.mem_filter.mpr ⟨hj, ?_⟩, hje⟩
    rw [hje]
    rw [hk] at hcond
    simpa using hcond

/-- C5: referential integrity is an invariant — in every store reachable by
any sequence of createJob, createWorker, assignWorker and deleteJob
requests, every Worker whose job_id is set references an existing Job. -/
theorem reachable_ref_integrity (db : DB) (h : Reachable db) : RefIntegrity db := by
  induction h with
  | init => intro w hw; simp [db0] at hw
  | createJob db inp _ ih => exact refIntegrity_create_job db inp ih
  | createWorker db inp _ ih => exact refIntegrity_create_worker db inp ih
  | assignWorker db wid jid _ ih => exact refIntegrity_assign db wid jid ih
  | deleteJob db jid _ ih => exact refIntegrity_delete db jid ih

theorem reachable_ref_integrity_witness :
    RefIntegrity
      (create_worker (create_job db0 ⟨"A", "B", none, none, none⟩).2
        ⟨"W", "R", some 1⟩).2 :=
  reachable_ref_integrity _
    (Reachable.createWorker _ _ (Reachable.createJob _ _ Reachable.init))

/-! ### Status-validity preservation and analytics lemmas -/

theorem validStatuses_create_job (db : DB) (inp : JobCreate) (h : ValidStatuses db) :
    ValidStatuses (create_job db inp).2 := by
  rcases create_job_state db inp with heq | ⟨hst, heq⟩ <;> rw [heq]
  · exact h
  · intro j hj
    rcases List.mem_append.mp hj with hmem | hmem
    · exact h j hmem
    · have hje : j = ⟨db.nextJobId, inp.name, inp.customer, inp.start_date,
          inp.end_date, inp.status⟩ := by simpa using hmem
      subst hje
      show OKStatus inp.status
      unfold OKStatus
      cases hs : inp.status with
      | none => exact Or.inl rfl
      | some s =>
        rw [hs] at hst
        unfold jobCreateStatusOk at hst
        simp only [Bool.or_eq_true, beq_iff_eq] at hst
        rcases hst with (h1 | h1) | h1 <;> simp [h1]

theorem validStatuses_create_worker (db : DB) (inp : WorkerCreate)
    (h : ValidStatuses db) : ValidStatuses (create_worker db inp).2 := by
  rcases create_worker_state db inp with heq | ⟨w, _, heq⟩ <;> rw [heq] <;> exact h

theorem validStatuses_assign (db : DB) (wid jid : Int) (h : ValidStatuses db) :
    ValidStatuses (assign_worker_to_job db wid jid).2 := by
  rcases assign_worker_state db wid jid with heq | ⟨_, heq⟩ <;> rw [heq] <;> exact h

theorem validStatuses_delete (db : DB) (jid : Int) (h : ValidStatuses db) :
    ValidStatuses (delete_job db jid).2 := by
  rcases delete_job_state db jid with heq | heq <;> rw [heq]
  · exact h
  · intro j hj
    exact h j (List.mem_filter.mp hj).1

theorem reachable_valid_statuses (db : DB) (h : Reachable db) : ValidStatuses db := by
  induction h with
  | init => intro j hj; simp [db0] at hj
  | createJob db inp _ ih => exact validStatuses_create_job db inp ih
  | createWorker db inp _ ih => exact validStatuses_create_worker db inp ih
  | assignWorker db wid jid _ ih => exact validStatuses_assign db wid jid ih
  | deleteJob db jid _ ih => exact validStatuses_delete db jid ih

theorem dictInsert_not_mem (k : String) (v : Nat) (d : List (String × Nat))
    (h : k ∉ d.map Prod.fst) :
    dictInsert k v d = d ++ [(k, v)] := by
  induction d with
  | nil => rfl
  | cons kv rest ih =>
    obtain ⟨k2, v2⟩ := kv
    have h1 : k2 ≠ k := by
      intro he
      exact h (by simp [he])
    have h2 : k ∉ rest.map Prod.fst := fun hm => h (by simp [hm])
    simp [dictInsert, h1, ih h2]

theorem foldl_dictInsert_nodup (l : List (String × Nat)) :
    ∀ d : List (String × Nat), ((d ++ l).map Prod.fst).Nodup →
      l.foldl (fun d kv => dictInsert kv.1 kv.2 d) d = d ++ l := by
  induction l with
  | nil => intro d _; simp
  | cons kv rest ih =>
    intro d h
    obtain ⟨k, v⟩ := kv
    have hk : k ∉ d.map Prod.fst := by
      intro hkd
      rw [List.map_append, List.nodup_append] at h
      exact h.2.2 hkd (by simp)
    have hnd : (((d ++ [(k, v)]) ++ rest).map Prod.fst).Nodup := by
      simpa [List.append_assoc] using h
    rw [List.foldl_cons]
    show rest.foldl (fun d kv => dictInsert kv.1 kv.2 d) (dictInsert k v d) = _
    rw [dictInsert_not_mem k v d hk, ih (d ++ [(k, v)]) hnd, List.append_assoc]
    rfl

theorem buildDict_nodup (l : List (String × Nat)) (h : (l.map Prod.fst).Nodup) :
    buildDict l = l :=
  foldl_dictInsert_nodup l [] (by simpa using h)

theorem sum_map_addf {α : Type} (f g : α → Nat) (l : List α) :
    (l.map (fun s => f s + g s)).sum = (l.map f).sum + (l.map g).sum := by
  induction l with
  | nil => rfl
  | cons a t ih =>
    simp only [List.map_cons, List.sum_cons, ih]
    omega

theorem countOcc_eq_zero {α : Type} [DecidableEq α] (a : α) (l : List α)
    (h : a ∉ l) : countOcc a l = 0 := by
  induction l with
  | nil => rfl
  | cons b t ih =>
    have hb : b ≠ a := fun he => h (he ▸ List.mem_cons_self b t)
    have ht := ih (fun hm => h (List.mem_cons_of_mem b hm))
    simp [countOcc, hb, ht]

theorem countOcc_nodup_mem {α : Type} [DecidableEq α] (a : α) (l : List α)
    (hn : l.Nodup) (ha : a ∈ l) : countOcc a l = 1 := by
  induction l with
  | nil => simp at ha
  | cons b t ih =>
    rcases List.mem_cons.mp ha with h1 | h1
    · subst h1
      show (if a = a then 1 else 0) + countOcc a t = 1
      rw [if_pos rfl, countOcc_eq_zero a t (List.nodup_cons.mp hn).1]
    · have hb : b ≠ a := by
        intro he
        subst he
        exact (List.nodup_cons.mp hn).1 h1
      show (if b = a then 1 else 0) + countOcc a t = 1
      rw [if_neg hb]
      simpa using ih (List.nodup_cons.mp hn).2 h1

theorem countOcc_dedup {α : Type} [DecidableEq α] (a : α) (l : List α) :
    countOcc a l.dedup = if a ∈ l then 1 else 0 := by
  by_cases h : a ∈ l
  · rw [if_pos h]
    exact countOcc_nodup_mem a l.dedup (List.nodup_dedup l) (List.mem_dedup.mpr h)
  · rw [if_neg h]
    exact countOcc_eq_zero a l.dedup (fun hm => h (List.mem_dedup.mp hm))

theorem sum_map_indicator {α : Type} [DecidableEq α] (a : α) (l : List α) :
    (l.map (fun s => if a = s then 1 else 0)).sum = countOcc a l := by
  induction l with
  | nil => rfl
  | cons b t ih =>
    simp only [List.map_cons, List.sum_cons, ih]
    show (if a = b then 1 else 0) + countOcc a t
        = (if b = a then 1 else 0) + countOcc a t
    congr 1
    by_cases h : a = b
    · rw [if_pos h, if_pos h.symm]
    · rw [if_neg h, if_neg (fun hb => h hb.symm)]

theorem sum_dedup_count {α : Type} [DecidableEq α] (l : List α) :
    (l.dedup.map (fun s => countOcc s l)).sum = l.length := by
  induction l with
  | nil => simp
  | cons a t ih =>
    have hsplit : ∀ m : List α, (m.map (fun s => countOcc s (a :: t))).sum
        = (m.map (fun s => if a = s then 1 else 0)).sum
          + (m.map (fun s => countOcc s t)).sum := by
      intro m
      rw [← sum_map_addf]
      apply congrArg
      apply List.map_congr_left
      intro s _
      rfl
    by_cases h : a ∈ t
    · rw [List.dedup_cons_of_mem h, hsplit, sum_map_indicator, countOcc_dedup,
        if_pos h, ih, List.length_cons]
      omega
    · rw [List.dedup_cons_of_not_mem h]
      simp only [List.map_cons, List.sum_cons]
      rw [hsplit, sum_map_indicator, countOcc_dedup, if_neg h, ih]
      have hca : countOcc a (a :: t) = 1 := by
        show (if a = a then 1 else 0) + countOcc a t = 1
        rw [if_pos rfl, countOcc_eq_zero a t h]
      rw [hca, List.length_cons]
      omega

theorem statusKey_inj (s t : Option String) (hs : OKStatus s) (ht : OKStatus t)
    (h : statusKey s = statusKey t) : s = t := by
  rcases hs with h1 | h1 | h1 | h1 <;> rcases ht with h2 | h2 | h2 | h2 <;>
    subst h1 <;> subst h2 <;> revert h <;> decide

theorem analytics_jobs_sum (db : DB) (h : ValidStatuses db) :
    (get_analytics db).total_jobs = sumValues (get_analytics db).jobs_by_status := by
  unfold get_analytics sumValues
  simp only []
  have hOK : ∀ s ∈ db.jobs.map (fun j => j.status), OKStatus s := by
    intro s hs
    obtain ⟨j, hj, hje⟩ := List.mem_map.mp hs
    exact hje ▸ h j hj
  have hnodup :
      ((((db.jobs.map (fun j => j.status)).dedup.map
          (fun s => (s, countOcc s (db.jobs.map (fun j => j.status))))).map
        (fun p => (statusKey p.1, p.2))).map Prod.fst).Nodup := by
    rw [List.map_map, List.map_map]
    show ((db.jobs.map (fun j => j.status)).dedup.map (fun s => statusKey s)).Nodup
    apply List.Nodup.map_on
    · intro x hx y hy hxy
      exact statusKey_inj x y (hOK x (List.mem_dedup.mp hx))
        (hOK y (List.mem_dedup.mp hy)) hxy
    · exact List.nodup_dedup _
  rw [buildDict_nodup _ hnodup, List.map_map, List.map_map]
  show db.jobs.length
      = ((db.jobs.map (fun j => j.status)).dedup.map
          (fun s => countOcc s (db.jobs.map (fun j => j.status)))).sum
  rw [sum_dedup_count, List.length_map]

theorem analytics_workers_sum (db : DB) :
    (get_analytics db).total_workers = sumValues (get_analytics db).workers_by_role := by
  unfold get_analytics sumValues
  simp only []
  have hnodup : (((db.workers.map (fun w => w.role)).dedup.map
      (fun r => (r, countOcc r (db.workers.map (fun w => w.role))))).map
        Prod.fst).Nodup := by
    rw [List.map_map]
    show ((db.workers.map (fun w => w.role)).dedup.map (fun r => r)).Nodup
    rw [List.map_id']
    exact List.nodup_dedup _
  rw [buildDict_nodup _ hnodup, List.map_map]
  show db.workers.length
      = ((db.workers.map (fun w => w.role)).dedup.map
          (fun r => countOcc r (db.workers.map (fun w => w.role)))).sum
  rw [sum_dedup_count, List.length_map]

/-- C7: in every reachable store state, the analytics response satisfies
total_jobs = sum of the jobs_by_status counts (NULL status grouped under
"Unspecified") and total_workers = sum of the workers_by_role counts. -/
theorem analytics_totals (db : DB) (h : Reachable db) :
    (get_analytics db).total_jobs = sumValues (get_analytics db).jobs_by_status ∧
    (get_analytics db).total_workers = sumValues (get_analytics db).workers_by_role :=
  ⟨analytics_jobs_sum db (reachable_valid_statuses db h),
   analytics_workers_sum db⟩

theorem analytics_totals_witness :
    (get_analytics (create_worker
        (create_job db0 ⟨"A", "B", none, none, some "Completed"⟩).2
        ⟨"W", "R", some 1⟩).2).total_jobs
      = sumValues (get_analytics (create_worker
        (create_job db0 ⟨"A", "B", none, none, some "Completed"⟩).2
        ⟨"W", "R", some 1⟩).2).jobs_by_status ∧
    (get_analytics (create_worker
        (create_job db0 ⟨"A", "B", none, none, some "Completed"⟩).2
        ⟨"W", "R", some 1⟩).2).total_workers
      = sumValues (get_analytics (create_worker
        (create_job db0 ⟨"A", "B", none, none, some "Completed"⟩).2
        ⟨"W", "R", some 1⟩).2).workers_by_role :=
  analytics_totals _
    (Reachable.createWorker _ _ (Reachable.createJob _ _ Reachable.init))

end Trayd
